import Mathlib

/-!
Shallow embedding of `src/catan.py` (a Telegram bot that tallies Catan
wins in a SQLite table) and verification of its specification claims.

Modelling conventions:
* The SQLite table `winners (username TEXT PRIMARY KEY, wins INTEGER)` is
  modelled as an association list in rowid (insertion) order.
* `SELECT wins FROM winners WHERE username = ?` with `fetchone` is the
  first matching row; `INSERT` appends a row; `UPDATE ... WHERE` rewrites
  every matching row (at most one when keys are unique).
* `SELECT username, wins FROM winners ORDER BY wins DESC` carries no
  secondary sort key, so SQLite leaves the order of rows with equal
  `wins` unspecified; we model it as a stable sort, i.e. ties keep the
  table scan (rowid/insertion) order, which is deterministic.
* Python functions that fall off the end return `None`; we model the
  return value of `increment_win_count` as `Option Nat` (always `none`)
  paired with the updated table.
* Python string slicing `caption[o : o + l]` clamps out-of-range bounds;
  `pySlice` models it as `(take stop).drop start` on the char list.
* `str.lstrip("@")` removes every leading `'@'`; modelled by `dropWhile`.
* The Telegram message object is reduced to the fields the handler reads:
  photo presence, caption text, caption entities (kind/offset/length).
  A `None` caption-entity list is modelled as the empty list.
-/

namespace Catan

/-- The `winners` table: rows `(username, wins)` in rowid order. -/
abbrev Store := List (String × Nat)

/-- `SELECT wins FROM winners WHERE username = ?` followed by `fetchone`. -/
def selectWins (s : Store) (u : String) : Option Nat :=
  (s.find? (fun p => p.1 = u)).map (fun p => p.2)

/-- `INSERT INTO winners (username, wins) VALUES (?, ?)`: appends a row. -/
def sqlInsert (s : Store) (u : String) (w : Nat) : Store :=
  s ++ [(u, w)]

/-- `UPDATE winners SET wins = ? WHERE username = ?`: rewrites matching rows. -/
def sqlUpdate (s : Store) (u : String) (w : Nat) : Store :=
  s.map (fun p => if p.1 = u then (p.1, w) else p)

/-- `increment_win_count(username)` from `src/catan.py`: looks the user up,
inserts `(username, 1)` when absent, otherwise updates to `wins + 1`.
The Python function has no `return` statement, so its return value is
`None`, modelled as the `none` first component. -/
def increment_win_count (username : String) (s : Store) : Option Nat × Store :=
  match selectWins s username with
  | none => (none, sqlInsert s username 1)
  | some w => (none, sqlUpdate s username (w + 1))

/-- `n` successive calls of `increment_win_count u`, oldest first. -/
def incrementN (u : String) : Nat → Store → Store
  | 0, s => s
  | n + 1, s => (increment_win_count u (incrementN u n s)).2

/-- Insert a row into a list kept sorted by `wins` descending, placing it
before the first strictly smaller entry (so equal counts keep their
original relative order: a stable descending sort step). -/
def insertByWins (p : String × Nat) : List (String × Nat) → List (String × Nat)
  | [] => [p]
  | q :: rest => if p.2 < q.2 then q :: insertByWins p rest else p :: q :: rest

/-- Stable sort by `wins` descending. -/
def sortByWinsDesc : List (String × Nat) → List (String × Nat)
  | [] => []
  | p :: rest => insertByWins p (sortByWinsDesc rest)

/-- `get_leaderboard()` from `src/catan.py`:
`SELECT username, wins FROM winners ORDER BY wins DESC`. The query names
no secondary sort key; ties are modelled as keeping rowid order. -/
def get_leaderboard (s : Store) : List (String × Nat) :=
  sortByWinsDesc s

/-- `stats_command` from `src/catan.py`: the text of the single reply it
sends, as a function of the table contents. -/
def stats_command (s : Store) : String :=
  let leaderboard := get_leaderboard s
  if leaderboard = [] then
    "No wins recorded yet!"
  else
    let leaderboard_text :=
      String.intercalate "\n" (leaderboard.map (fun p => "@" ++ p.1 ++ ": " ++ toString p.2))
    "**Catan Wins Leaderboard**" ++ "\n" ++ leaderboard_text

/-- One caption entity of a Telegram message: its kind, offset and length. -/
structure Entity where
  type : String
  offset : Nat
  length : Nat
deriving DecidableEq, Repr

/-- The fields of a Telegram message that `message_handler` reads. -/
structure Message where
  photo : Bool
  caption : String
  caption_entities : List Entity
deriving DecidableEq, Repr

/-- Python slicing `s[start : stop]` for non-negative bounds: clamps both
bounds to the string, never raising. -/
def pySlice (s : List Char) (start stop : Nat) : List Char :=
  (s.take stop).drop start

/-- Python `str.lstrip("@")`: drops every leading `'@'` character. -/
def lstripAt (s : List Char) : List Char :=
  s.dropWhile (fun c => c = '@')

/-- The identity `message_handler` extracts from the caption slice at
`[o, o + l)`: the slice with all leading `'@'` removed. -/
def extract_username (caption : String) (o l : Nat) : String :=
  String.mk (lstripAt (pySlice caption.data o (o + l)))

/-- The `for entity in message.caption_entities` loop of `message_handler`:
skips entities whose type is not `"mention"`; on the first mention it
slices the caption, lstrips `'@'`, increments the count and replies, then
breaks. Returns the updated table and the replies sent. -/
def handle_entities (caption : String) : List Entity → Store → Store × List String
  | [], s => (s, [])
  | e :: rest, s =>
    if e.type = "mention" then
      let mention_text := String.mk (pySlice caption.data e.offset (e.offset + e.length))
      let username := String.mk (lstripAt mention_text.data)
      ((increment_win_count username s).2,
        ["Counted a Catan win for " ++ mention_text ++ "!"])
    else
      handle_entities caption rest s

/-- `message_handler` from `src/catan.py`, as a function from the message
and the table to the updated table and the replies sent: returns
immediately when the message has no photo, then scans the caption
entities (an absent list behaves as the empty one). -/
def message_handler (m : Message) (s : Store) : Store × List String :=
  if m.photo = false then (s, [])
  else if m.caption_entities = [] then (s, [])
  else handle_entities m.caption m.caption_entities s

/-- The first entity of kind `"mention"`, in annotation order. -/
def firstMention : List Entity → Option Entity
  | [] => none
  | e :: rest => if e.type = "mention" then some e else firstMention rest

/-- Whether a character sequence begins with the `'@'` sigil. -/
def leadsWithSigil : List Char → Bool
  | [] => false
  | c :: _ => c = '@'

/-- The tie-break order the spec claims for the leaderboard: count
descending, and identity ascending among equal counts. Stated from the
spec's words, to be compared with `get_leaderboard`. -/
def tieBrokenByIdentityAsc (l : List (String × Nat)) : Prop :=
  l.Pairwise (fun a b => b.2 < a.2 ∨ (a.2 = b.2 ∧ a.1 < b.1))

theorem selectWins_cons (a : String × Nat) (s : Store) (u : String) :
    selectWins (a :: s) u = if a.1 = u then some a.2 else selectWins s u := by
  by_cases h : a.1 = u <;> simp [selectWins, List.find?, h]

theorem selectWins_sqlInsert_self (s : Store) (u : String) (w : Nat)
    (h : selectWins s u = none) : selectWins (sqlInsert s u w) u = some w := by
  induction s with
  | nil => simp [sqlInsert, selectWins_cons, selectWins]
  | cons a s ih =>
    rw [selectWins_cons] at h
    by_cases ha : a.1 = u
    · simp [ha] at h
    · rw [if_neg ha] at h
      show selectWins (a :: sqlInsert s u w) u = some w
      rw [selectWins_cons, if_neg ha]
      exact ih h

theorem selectWins_sqlInsert_other (s : Store) (u v : String) (w : Nat)
    (h : v ≠ u) : selectWins (sqlInsert s u w) v = selectWins s v := by
  have h' : ¬ u = v := fun hh => h hh.symm
  induction s with
  | nil => simp [sqlInsert, selectWins_cons, selectWins, h']
  | cons a s ih =>
    show selectWins (a :: sqlInsert s u w) v = _
    rw [selectWins_cons, selectWins_cons, ih]

theorem selectWins_sqlUpdate_self (s : Store) (u : String) (w w0 : Nat)
    (h : selectWins s u = some w0) : selectWins (sqlUpdate s u w) u = some w := by
  induction s with
  | nil => simp [selectWins] at h
  | cons a s ih =>
    rw [selectWins_cons] at h
    by_cases ha : a.1 = u
    · show selectWins ((if a.1 = u then (a.1, w) else a) :: sqlUpdate s u w) u = some w
      rw [if_pos ha, selectWins_cons, if_pos ha]
    · rw [if_neg ha] at h
      show selectWins ((if a.1 = u then (a.1, w) else a) :: sqlUpdate s u w) u = some w
      rw [if_neg ha, selectWins_cons, if_neg ha]
      exact ih h

theorem selectWins_sqlUpdate_other (s : Store) (u v : String) (w : Nat)
    (h : v ≠ u) : selectWins (sqlUpdate s u w) v = selectWins s v := by
  induction s with
  | nil => rfl
  | cons a s ih =>
    show selectWins ((if a.1 = u then (a.1, w) else a) :: sqlUpdate s u w) v = _
    by_cases ha : a.1 = u
    · have hav : ¬ a.1 = v := fun hh => h (hh ▸ ha)
      rw [if_pos ha, selectWins_cons, selectWins_cons, ih]
      simp [hav]
    · rw [if_neg ha, selectWins_cons, selectWins_cons, ih]

theorem selectWins_increment_self (u : String) (s : Store) :
    selectWins (increment_win_count u s).2 u =
      some ((selectWins s u).getD 0 + 1) := by
  cases h : selectWins s u with
  | none =>
    simp only [increment_win_count, h, Option.getD_none]
    exact selectWins_sqlInsert_self s u 1 h
  | some w =>
    simp only [increment_win_count, h, Option.getD_some]
    exact selectWins_sqlUpdate_self s u (w + 1) w h

theorem selectWins_increment_other (u v : String) (s : Store) (h : v ≠ u) :
    selectWins (increment_win_count u s).2 v = selectWins s v := by
  cases hu : selectWins s u with
  | none =>
    simp only [increment_win_count, hu]
    exact selectWins_sqlInsert_other s u v 1 h
  | some w =>
    simp only [increment_win_count, hu]
    exact selectWins_sqlUpdate_other s u v (w + 1) h

theorem insertByWins_perm (p : String × Nat) (l : List (String × Nat)) :
    List.Perm (insertByWins p l) (p :: l) := by
  induction l with
  | nil => exact List.Perm.refl _
  | cons q rest ih =>
    by_cases h : p.2 < q.2
    · simp only [insertByWins, if_pos h]
      exact (ih.cons q).trans (List.Perm.swap p q rest)
    · simp only [insertByWins, if_neg h]
      exact List.Perm.refl _

theorem sortByWinsDesc_perm (l : List (String × Nat)) :
    List.Perm (sortByWinsDesc l) l := by
  induction l with
  | nil => exact List.Perm.refl _
  | cons p rest ih =>
    exact (insertByWins_perm p (sortByWinsDesc rest)).trans (ih.cons p)

theorem mem_insertByWins {p q : String × Nat} {l : List (String × Nat)}
    (h : q ∈ insertByWins p l) : q = p ∨ q ∈ l := by
  have := (insertByWins_perm p l).mem_iff.1 h
  simpa using this

theorem insertByWins_sorted {p : String × Nat} {l : List (String × Nat)}
    (h : l.Pairwise (fun a b => b.2 ≤ a.2)) :
    (insertByWins p l).Pairwise (fun a b => b.2 ≤ a.2) := by
  induction l with
  | nil => simp [insertByWins]
  | cons q rest ih =>
    rcases List.pairwise_cons.1 h with ⟨hq, hrest⟩
    by_cases hlt : p.2 < q.2
    · simp only [insertByWins, if_pos hlt]
      refine List.pairwise_cons.2 ⟨?_, ih hrest⟩
      intro r hr
      rcases mem_insertByWins hr with rfl | hr'
      · exact Nat.le_of_lt hlt
      · exact hq r hr'
    · simp only [insertByWins, if_neg hlt]
      refine List.pairwise_cons.2 ⟨?_, h⟩
      intro r hr
      rcases List.mem_cons.1 hr with rfl | hr'
      · exact Nat.le_of_not_lt hlt
      · exact Nat.le_trans (hq r hr') (Nat.le_of_not_lt hlt)

theorem sortByWinsDesc_sorted (l : List (String × Nat)) :
    (sortByWinsDesc l).Pairwise (fun a b => b.2 ≤ a.2) := by
  induction l with
  | nil => simp [sortByWinsDesc]
  | cons p rest ih => exact insertByWins_sorted ih

theorem leadsWithSigil_lstripAt (l : List Char) :
    leadsWithSigil (lstripAt l) = false := by
  induction l with
  | nil => rfl
  | cons c rest ih =>
    by_cases h : c = '@'
    · simpa [lstripAt, List.dropWhile, h] using ih
    · simp [lstripAt, List.dropWhile, h, leadsWithSigil]

theorem lstripAt_replicate (l : List Char) :
    ∃ k, l = List.replicate k '@' ++ lstripAt l := by
  induction l with
  | nil => exact ⟨0, rfl⟩
  | cons c rest ih =>
    by_cases h : c = '@'
    · obtain ⟨k, hk⟩ := ih
      refine ⟨k + 1, ?_⟩
      have h1 : lstripAt (c :: rest) = lstripAt rest := by
        simp [lstripAt, List.dropWhile, h]
      rw [h1, List.replicate_succ, List.cons_append, h]
      exact congrArg (fun t => '@' :: t) hk
    · exact ⟨0, by simp [lstripAt, List.dropWhile, h]⟩

theorem handle_entities_eq (caption : String) (es : List Entity) (s : Store) :
    handle_entities caption es s =
      match firstMention es with
      | none => (s, [])
      | some e =>
          ((increment_win_count
              (extract_username caption e.offset e.length) s).2,
            ["Counted a Catan win for " ++
              String.mk (pySlice caption.data e.offset (e.offset + e.length)) ++ "!"]) := by
  induction es with
  | nil => rfl
  | cons e rest ih =>
    by_cases h : e.type = "mention"
    · simp [handle_entities, firstMention, h, extract_username]
    · simp only [handle_entities, firstMention, if_neg h, ih]

theorem message_handler_eq (m : Message) (s : Store) :
    message_handler m s =
      if m.photo = false then (s, [])
      else
        match firstMention m.caption_entities with
        | none => (s, [])
        | some e =>
            ((increment_win_count
                (extract_username m.caption e.offset e.length) s).2,
              ["Counted a Catan win for " ++
                String.mk (pySlice m.caption.data e.offset (e.offset + e.length)) ++ "!"]) := by
  unfold message_handler
  by_cases hp : m.photo = false
  · simp [hp]
  · cases hes : m.caption_entities with
    | nil => simp [hp, hes, firstMention]
    | cons e rest => simp [hp, hes, handle_entities_eq]

theorem stats_command_eq (s : Store) :
    stats_command s =
      if get_leaderboard s = [] then "No wins recorded yet!"
      else
        "**Catan Wins Leaderboard**" ++ "\n" ++
          String.intercalate "\n"
            ((get_leaderboard s).map (fun p => "@" ++ p.1 ++ ": " ++ toString p.2)) := rfl

theorem header_append_ne_no_wins (t : String) :
    "**Catan Wins Leaderboard**" ++ "\n" ++ t ≠ "No wins recorded yet!" := by
  intro h
  have hlen := congrArg String.length h
  rw [String.length_append, String.length_append] at hlen
  have h26 : ("**Catan Wins Leaderboard**" : String).length = 26 := rfl
  have hnl : ("\n" : String).length = 1 := rfl
  have h21 : ("No wins recorded yet!" : String).length = 21 := rfl
  rw [h26, hnl, h21] at hlen
  omega

theorem incrementN_succ_count (u : String) (s : Store)
    (habs : selectWins s u = none) :
    ∀ n, selectWins (incrementN u (n + 1) s) u = some (n + 1) := by
  intro n
  induction n with
  | zero =>
    show selectWins (increment_win_count u (incrementN u 0 s)).2 u = some 1
    rw [selectWins_increment_self]
    show some ((selectWins s u).getD 0 + 1) = some 1
    rw [habs]
    rfl
  | succ k ih =>
    show selectWins (increment_win_count u (incrementN u (k + 1) s)).2 u = some (k + 2)
    rw [selectWins_increment_self, ih]
    rfl

/-- C1 counterexample: the SQL query `ORDER BY wins DESC` carries no
secondary sort key, so equal counts are not tie-broken by identity
ascending: with rows `("b", 5)` then `("a", 5)` the leaderboard keeps
`"b"` before `"a"`. -/
theorem c1_counterexample :
    get_leaderboard [("b", 5), ("a", 5)] = [("b", 5), ("a", 5)] ∧
      ¬ tieBrokenByIdentityAsc (get_leaderboard [("b", 5), ("a", 5)]) := by
  constructor
  · decide
  · intro h
    have h1 := (List.pairwise_cons.1 h).1 ("a", 5) (by decide)
    rcases h1 with h1 | h1
    · exact absurd h1 (by decide)
    · have h2 := h1.2
      rw [String.lt_iff_toList_lt] at h2
      exact absurd h2 (by decide)

/-- C1 (amended): `get_leaderboard` returns every stored record, sorted by
count descending, deterministically (it is a function of the store
contents); ties among equal counts are *not* tie-broken by identity
ascending — they keep the table's rowid order. -/
theorem c1_leaderboard_sorted_desc (s : Store) :
    List.Perm (get_leaderboard s) s ∧
      (get_leaderboard s).Pairwise (fun a b => b.2 ≤ a.2) :=
  ⟨sortByWinsDesc_perm s, sortByWinsDesc_sorted s⟩

/-- C2 counterexample: `increment_win_count` persists the new value, but
the Python function has no `return` statement: at identity `"alice"` on
the empty store the new stored value is `1` while the function returns
`None`, not `1`. -/
theorem c2_counterexample :
    selectWins (increment_win_count "alice" []).2 "alice" = some 1 ∧
      (increment_win_count "alice" []).1 ≠ some 1 := by
  decide

/-- C2 (amended): for every identity, `increment_win_count` reads the
current count (0 if absent), adds 1 and persists the new value, but
returns `None` to the caller rather than the new integer. -/
theorem c2_increment_persists_returns_none (u : String) (s : Store) :
    (increment_win_count u s).1 = none ∧
      selectWins (increment_win_count u s).2 u =
        some ((selectWins s u).getD 0 + 1) := by
  refine ⟨?_, selectWins_increment_self u s⟩
  cases h : selectWins s u <;> simp [increment_win_count, h]

/-- C3 counterexample: the code strips *all* leading `'@'` characters
(`lstrip("@")`), not exactly one: the caption slice `"@@alice"` yields
the identity `"alice"`, not `"@alice"`, and the handler stores it so. -/
theorem c3_counterexample :
    extract_username "@@alice" 0 7 = "alice" ∧
      extract_username "@@alice" 0 7 ≠ "@alice" ∧
      (message_handler ⟨true, "@@alice", [⟨"mention", 0, 7⟩]⟩ []).1 =
        [("alice", 1)] := by
  decide

/-- C3 (amended): the extracted identity is the caption slice with *every*
leading `'@'` removed (the slice is some run of `'@'` followed by the
identity), so the result never retains a leading `'@'`. -/
theorem c3_extract_strips_all_sigils (caption : String) (o l : Nat) :
    (∃ k, pySlice caption.data o (o + l) =
        List.replicate k '@' ++ (extract_username caption o l).data) ∧
      leadsWithSigil (extract_username caption o l).data = false := by
  constructor
  · obtain ⟨k, hk⟩ := lstripAt_replicate (pySlice caption.data o (o + l))
    exact ⟨k, hk⟩
  · exact leadsWithSigil_lstripAt _

/-- C4 counterexample: an out-of-bounds mention span is *not* skipped:
on caption `"hi"` with a first mention span at offset 5, length 3, the
handler does not move on to the valid second mention of `"hi"`; it
processes the clamped empty slice and stores the empty identity. -/
theorem c4_counterexample :
    (message_handler ⟨true, "hi", [⟨"mention", 5, 3⟩, ⟨"mention", 0, 2⟩]⟩ []).1 =
        [("", 1)] ∧
      ("hi", 1) ∉
        (message_handler ⟨true, "hi", [⟨"mention", 5, 3⟩, ⟨"mention", 0, 2⟩]⟩ []).1 := by
  decide

/-- C4 (amended): the handler never indexes out of bounds — Python slicing
clamps both bounds, so the extracted slice is always a contiguous part of
the caption — but a malformed (out-of-bounds) mention annotation is still
processed with the clamped slice rather than skipped. -/
theorem c4_slice_within_caption (caption : String) (o l : Nat) :
    ∃ pre post,
      (pre ++ pySlice caption.data o (o + l)) ++ post = caption.data := by
  refine ⟨(caption.data.take (o + l)).take o, caption.data.drop (o + l), ?_⟩
  show ((caption.data.take (o + l)).take o ++ (caption.data.take (o + l)).drop o) ++
      caption.data.drop (o + l) = caption.data
  rw [List.take_append_drop, List.take_append_drop]

/-- C5: for every message with a photo whose entity scan finds a first
mention (skipping non-mention kinds), the handler's whole effect is one
increment for that mention's extracted identity and one confirmation
reply; entities after the first mention do not influence the result. -/
theorem c5_first_mention_only (m : Message) (s : Store) (e : Entity)
    (hp : m.photo = true) (hf : firstMention m.caption_entities = some e) :
    message_handler m s =
      ((increment_win_count (extract_username m.caption e.offset e.length) s).2,
        ["Counted a Catan win for " ++
          String.mk (pySlice m.caption.data e.offset (e.offset + e.length)) ++ "!"]) := by
  rw [message_handler_eq]
  simp [hp, hf]

/-- C5 witness: a photo message with two mentions `@a` and `@b` increments
only `"a"` and sends exactly one reply. -/
theorem c5_witness :
    message_handler ⟨true, "@a @b", [⟨"mention", 0, 2⟩, ⟨"mention", 3, 2⟩]⟩ [] =
      ([("a", 1)], ["Counted a Catan win for @a!"]) := by
  have h := c5_first_mention_only
    ⟨true, "@a @b", [⟨"mention", 0, 2⟩, ⟨"mention", 3, 2⟩]⟩ [] ⟨"mention", 0, 2⟩
    rfl (by decide)
  rw [h]
  decide

/-- C6: for an identity absent from the store, `n ≥ 1` successive calls of
`increment_win_count` leave its stored count at exactly `n`; the first
call implicitly creates the record with count 1. -/
theorem c6_increment_n_times (u : String) (s : Store) (n : Nat)
    (habs : selectWins s u = none) (hn : 1 ≤ n) :
    selectWins (incrementN u n s) u = some n := by
  cases n with
  | zero => exact absurd hn (by decide)
  | succ k => exact incrementN_succ_count u s habs k

/-- C6 witness: two increments of `"alice"` on the empty store yield a
stored count of exactly 2. -/
theorem c6_witness :
    selectWins ([] : Store) "alice" = none ∧
      selectWins (incrementN "alice" 2 []) "alice" = some 2 :=
  ⟨rfl, c6_increment_n_times "alice" [] 2 rfl (by decide)⟩

/-- C7: incrementing identity `u` leaves the stored count of every other
identity `y ≠ u` unchanged. -/
theorem c7_increment_isolation (u y : String) (s : Store) (h : y ≠ u) :
    selectWins (increment_win_count u s).2 y = selectWins s y :=
  selectWins_increment_other u y s h

/-- C7 witness: incrementing `"alice"` leaves `"bob"`'s count unchanged. -/
theorem c7_witness :
    selectWins (increment_win_count "alice" [("bob", 2)]).2 "bob" =
      selectWins [("bob", 2)] "bob" :=
  c7_increment_isolation "alice" "bob" [("bob", 2)] (by decide)

/-- C8: when detection yields nothing — no photo, or no mention-kind
entity among the caption entities — the handler leaves the store
unchanged and sends no reply. -/
theorem c8_no_detection_noop (m : Message) (s : Store)
    (h : m.photo = false ∨ firstMention m.caption_entities = none) :
    message_handler m s = (s, []) := by
  rw [message_handler_eq]
  rcases h with h | h
  · simp [h]
  · by_cases hp : m.photo = false
    · simp [hp]
    · simp [hp, h]

/-- C8 witness: a message without a photo, even with a mention entity,
changes nothing and sends no reply. -/
theorem c8_witness :
    message_handler ⟨false, "@a", [⟨"mention", 0, 2⟩]⟩ [("x", 1)] =
      ([("x", 1)], []) :=
  c8_no_detection_noop ⟨false, "@a", [⟨"mention", 0, 2⟩]⟩ [("x", 1)] (Or.inl rfl)

/-- C9: the stats reply is the fixed `"No wins recorded yet!"` text exactly
when the leaderboard is empty; otherwise it is the leaderboard header,
then each entry rendered `@identity: count`, newline-joined, in the
store's order. -/
theorem c9_stats_reply (s : Store) :
    (stats_command s = "No wins recorded yet!" ↔ get_leaderboard s = []) ∧
      (get_leaderboard s ≠ [] →
        stats_command s =
          "**Catan Wins Leaderboard**" ++ "\n" ++
            String.intercalate "\n"
              ((get_leaderboard s).map (fun p => "@" ++ p.1 ++ ": " ++ toString p.2))) := by
  rw [stats_command_eq]
  by_cases h : get_leaderboard s = []
  · simp [h]
  · rw [if_neg h]
    exact ⟨⟨fun heq => absurd heq (header_append_ne_no_wins _),
            fun he => absurd he h⟩,
           fun _ => rfl⟩

/-- C9 witness: a store with one record renders a one-line leaderboard
under the header, not the empty-store text. -/
theorem c9_witness :
    stats_command [("bob", 2)] =
      "**Catan Wins Leaderboard**" ++ "\n" ++ "@bob: 2" := by
  have h := (c9_stats_reply [("bob", 2)]).2 (by decide)
  rw [h]
  decide

/-- C10: every record the handler adds or rewrites carries an identity
that does not begin with `'@'` — all leading sigils are stripped before
`increment_win_count` is called, so no stored key starts with `'@'`. -/
theorem c10_no_sigil_stored (m : Message) (s : Store) (p : String × Nat)
    (hmem : p ∈ (message_handler m s).1) (hnew : p ∉ s) :
    leadsWithSigil p.1.data = false := by
  rw [message_handler_eq] at hmem
  by_cases hp : m.photo = false
  · rw [if_pos hp] at hmem
    exact absurd hmem hnew
  · rw [if_neg hp] at hmem
    cases hf : firstMention m.caption_entities with
    | none =>
      rw [hf] at hmem
      exact absurd hmem hnew
    | some e =>
      rw [hf] at hmem
      have husig :
          leadsWithSigil (extract_username m.caption e.offset e.length).data = false :=
        leadsWithSigil_lstripAt _
      cases hsel : selectWins s (extract_username m.caption e.offset e.length) with
      | none =>
        simp only [increment_win_count, hsel] at hmem
        rcases List.mem_append.1 hmem with h1 | h1
        · exact absurd h1 hnew
        · have hp1 : p = (extract_username m.caption e.offset e.length, 1) := by
            simpa using h1
          rw [hp1]
          exact husig
      | some w =>
        simp only [increment_win_count, hsel] at hmem
        rcases List.mem_map.1 hmem with ⟨q, hq, hfq⟩
        by_cases hq1 : q.1 = extract_username m.caption e.offset e.length
        · rw [if_pos hq1] at hfq
          rw [← hfq]
          show leadsWithSigil q.1.data = false
          rw [hq1]
          exact husig
        · rw [if_neg hq1] at hfq
          exact absurd (hfq ▸ hq) hnew

/-- C10 witness: processing a `@alice` mention stores the key `"alice"`,
which does not begin with `'@'`. -/
theorem c10_witness :
    leadsWithSigil (("alice", 1) : String × Nat).1.data = false :=
  c10_no_sigil_stored ⟨true, "@alice", [⟨"mention", 0, 6⟩]⟩ [] ("alice", 1)
    (by decide) (by decide)

example : increment_win_count "alice" [] = (none, [("alice", 1)]) := by decide
example : increment_win_count "alice" [("alice", 2), ("bob", 1)] =
    (none, [("alice", 3), ("bob", 1)]) := by decide
example : get_leaderboard [("a", 3), ("b", 5), ("c", 5)] =
    [("b", 5), ("c", 5), ("a", 3)] := by decide
example : stats_command [] = "No wins recorded yet!" := by decide
example : message_handler ⟨true, "Great game @alice!", [⟨"mention", 11, 6⟩]⟩ [] =
    ([("alice", 1)], ["Counted a Catan win for @alice!"]) := by decide
example : message_handler ⟨false, "Great game @alice!", [⟨"mention", 11, 6⟩]⟩ [] =
    ([], []) := by decide

end Catan
